import Mathlib

/-!
Verification of the MooreArduino library (arduino-wifi-connection repository).

Shallow embedding of `src/MooreArduino/src/MooreMachine.h`,
`src/MooreArduino/src/AsyncOp.h` and `src/MooreArduino/src/Button.h`.

C++ function pointers that may be null are modelled as `Option`; the
observer array of capacity `MAX_OBSERVERS` together with `observerCount`
is modelled as the list of its first `observerCount` entries (the only
slots any method ever reads), each entry an observer identity drawn from
an arbitrary type `O` with decidable equality (function pointers are
compared by identity with `==` in the C++ source).  Observer callbacks
return `void`; their only observable behaviour is which handle is invoked
with which `(old, new)` pair, so `step` additionally returns the list of
invocations it performs, in order.  `millis()` is modelled as an explicit
clock argument; `unsigned long` arithmetic is arithmetic modulo 2^32.
-/

namespace MooreArduino

/-- Capacity of the observer array (`MAX_OBSERVERS` in MooreMachine.h). -/
def MAX_OBSERVERS : Nat := 8

/-- The `MooreMachine<State, Input, Effect>` object state: current state,
nullable transition function `delta`, nullable output function `lambda`,
and the registered observers (in registration order). -/
structure MooreMachine (Q I E O : Type) where
  currentState : Q
  delta : Option (Q → I → Q)
  lambda : Option (Q → E)
  observers : List O

/-- The constructor `MooreMachine(transitionFunc, initialState)`:
state is the initial state, `lambda` is null, the observer list is empty. -/
def MooreMachine.mk0 (Q I E O : Type) (transitionFunc : Option (Q → I → Q))
    (initialState : Q) : MooreMachine Q I E O :=
  { currentState := initialState, delta := transitionFunc,
    lambda := none, observers := [] }

/-- One observer invocation record: which observer was called, with which
old state and which new state. -/
structure Invocation (Q O : Type) where
  obs : O
  oldState : Q
  newState : Q
  deriving DecidableEq, Repr

/-- `notifyObservers(oldState, newState)`: calls every registered observer
in order (every registered slot is non-null, see `addStateObserver`).
Returns the list of invocations performed. -/
def MooreMachine.notifyObservers (m : MooreMachine Q I E O) (oldState newState : Q) :
    List (Invocation Q O) :=
  m.observers.map (fun o => ⟨o, oldState, newState⟩)

/-- `step(input)`: if `delta` is null, do nothing; otherwise replace
`currentState` by `delta(currentState, input)` and notify all observers
with the old and the new state.  Returns the updated object and the
observer invocations performed. -/
def MooreMachine.step (m : MooreMachine Q I E O) (input : I) :
    MooreMachine Q I E O × List (Invocation Q O) :=
  match m.delta with
  | none => (m, [])
  | some d =>
    let oldState := m.currentState
    let newState := d oldState input
    ({ m with currentState := newState }, m.notifyObservers oldState newState)

/-- `getState()`: returns the current state, no side effect. -/
def MooreMachine.getState (m : MooreMachine Q I E O) : Q :=
  m.currentState

/-- `getCurrentOutput()`: `lambda(currentState)` if `lambda` is set,
otherwise a default-constructed `Effect` (`Effect()` in C++, modelled by
the `Inhabited` default). -/
def MooreMachine.getCurrentOutput [Inhabited E] (m : MooreMachine Q I E O) : E :=
  match m.lambda with
  | some l => l m.currentState
  | none => default

/-- `getCurrentOutput()` is a `const` method: the C++ call returns the
value and leaves the object untouched.  This models one call as the pair
(returned value, object after the call). -/
def MooreMachine.getCurrentOutputCall [Inhabited E] (m : MooreMachine Q I E O) :
    E × MooreMachine Q I E O :=
  (m.getCurrentOutput, m)

/-- The results of `n` consecutive `getCurrentOutput()` calls, each call
made on the object left behind by the previous one. -/
def MooreMachine.repeatedOutputs [Inhabited E] :
    MooreMachine Q I E O → Nat → List E
  | _, 0 => []
  | m, n + 1 =>
    let c := m.getCurrentOutputCall
    c.1 :: c.2.repeatedOutputs n

/-- `setOutputFunction(outputFunc)`: replaces `lambda`. -/
def MooreMachine.setOutputFunction (m : MooreMachine Q I E O)
    (outputFunc : Option (Q → E)) : MooreMachine Q I E O :=
  { m with lambda := outputFunc }

/-- `addStateObserver(observer)`: fails on a null observer or when
`observerCount >= MAX_OBSERVERS`; otherwise appends the observer and
succeeds.  Returns the updated object and the boolean result. -/
def MooreMachine.addStateObserver (m : MooreMachine Q I E O) (observer : Option O) :
    MooreMachine Q I E O × Bool :=
  match observer with
  | none => (m, false)
  | some o =>
    if m.observers.length ≥ MAX_OBSERVERS then (m, false)
    else ({ m with observers := m.observers ++ [o] }, true)

/-- The scan loop of `removeStateObserver`: find the first slot holding
`observer`, shift everything after it down one position; `none` when no
slot matches. -/
def removeFirst [DecidableEq O] : List O → O → Option (List O)
  | [], _ => none
  | x :: xs, o =>
    if x = o then some xs
    else
      match removeFirst xs o with
      | some ys => some (x :: ys)
      | none => none

/-- `removeStateObserver(observer)`: removes the first identity match and
returns true; returns false and leaves the list unchanged when no slot
matches. -/
def MooreMachine.removeStateObserver [DecidableEq O] (m : MooreMachine Q I E O)
    (observer : O) : MooreMachine Q I E O × Bool :=
  match removeFirst m.observers observer with
  | some l => ({ m with observers := l }, true)
  | none => (m, false)

/-- `getObserverCount()`: the number of registered observers. -/
def MooreMachine.getObserverCount (m : MooreMachine Q I E O) : Nat :=
  m.observers.length

/-- Running a sequence of `step` calls, keeping only the machine. -/
def MooreMachine.runSteps (m : MooreMachine Q I E O) (inputs : List I) :
    MooreMachine Q I E O :=
  inputs.foldl (fun acc i => (acc.step i).1) m

/-- `step` never touches `delta`. -/
theorem step_delta (m : MooreMachine Q I E O) (input : I) :
    (m.step input).1.delta = m.delta := by
  cases h : m.delta <;> simp [MooreMachine.step, h]

/-- With a non-null `delta`, one `step` updates the state by `delta`. -/
theorem step_state (m : MooreMachine Q I E O) (d : Q → I → Q) (input : I)
    (h : m.delta = some d) :
    (m.step input).1.currentState = d m.currentState input := by
  unfold MooreMachine.step
  rw [h]

/-- With a non-null `delta`, a sequence of steps folds `delta` over the
inputs from the current state. -/
theorem runSteps_state (d : Q → I → Q) (inputs : List I) :
    ∀ m : MooreMachine Q I E O, m.delta = some d →
      (m.runSteps inputs).currentState = inputs.foldl d m.currentState := by
  induction inputs with
  | nil => intro m _; rfl
  | cons i is ih =>
    intro m h
    have hd : ((m.step i).1).delta = some d := by rw [step_delta, h]
    have hs : ((m.step i).1).currentState = d m.currentState i := step_state m d i h
    show ((m.step i).1.runSteps is).currentState = is.foldl d (d m.currentState i)
    rw [ih (m.step i).1 hd, hs]

/-- C1: for an engine constructed with a pure transition function `d` and
initial state `q0` and no output function set, `getState()` after steps
on inputs `i1..in` is the left-fold of `d` over `q0` and the inputs; for
the empty sequence, `getState()` right after construction is `q0`. -/
theorem C1_getState_is_foldl (Q I E O : Type) (d : Q → I → Q) (q0 : Q)
    (inputs : List I) :
    ((MooreMachine.mk0 Q I E O (some d) q0).runSteps inputs).getState
        = inputs.foldl d q0
      ∧ (MooreMachine.mk0 Q I E O (some d) q0).getState = q0 := by
  refine ⟨?_, rfl⟩
  exact runSteps_state d inputs (MooreMachine.mk0 Q I E O (some d) q0) rfl

/-- C3: with a non-null transition function, one `step(input)` call on a
machine with observer list `obs` invokes exactly the registered
observers, once each, in registration order, each with the pair
(state before the step, state after the step); with `k` registered
observers there are exactly `k` invocations. -/
theorem C3_step_notifies_each_observer_once (Q I E O : Type) (q0 : Q)
    (d : Q → I → Q) (lam : Option (Q → E)) (obs : List O) (input : I) :
    ((⟨q0, some d, lam, obs⟩ : MooreMachine Q I E O).step input).2
        = obs.map (fun o => ⟨o, q0, d q0 input⟩)
      ∧ ((⟨q0, some d, lam, obs⟩ : MooreMachine Q I E O).step input).2.length
        = obs.length := by
  constructor
  · rfl
  · simp [MooreMachine.step, MooreMachine.notifyObservers]

/-- C9: observers are notified even on an identity step: when
`delta(currentState, input) = currentState`, `step(input)` still invokes
every registered observer once, with the (unchanged) pair. -/
theorem C9_identity_step_still_notifies (m : MooreMachine Q I E O)
    (d : Q → I → Q) (input : I) (hd : m.delta = some d)
    (hid : d m.currentState input = m.currentState) :
    (m.step input).2 = m.observers.map (fun o => ⟨o, m.currentState, m.currentState⟩)
      ∧ (m.step input).2.length = m.observers.length := by
  constructor
  · simp [MooreMachine.step, hd, MooreMachine.notifyObservers, hid]
  · simp [MooreMachine.step, hd, MooreMachine.notifyObservers]

/-- Concrete machine for the C9 witness: identity transition on state 5,
observers 1 and 2. -/
def M9 : MooreMachine Nat Nat Nat Nat :=
  ⟨5, some (fun q _ => q), none, [1, 2]⟩

/-- Witness for C9 at the concrete machine `M9`. -/
theorem C9_witness :
    (M9.step 0).2 = M9.observers.map (fun o => ⟨o, M9.currentState, M9.currentState⟩)
      ∧ (M9.step 0).2.length = M9.observers.length :=
  C9_identity_step_still_notifies M9 (fun q _ => q) 0 rfl rfl

/-- A method call on the machine, for stating "after any sequence of
operations": observer registration/removal, a step, or replacing the
output function. -/
inductive MOp (Q I E O : Type) where
  | addObs (observer : Option O)
  | removeObs (observer : O)
  | stepIn (input : I)
  | setOut (outputFunc : Option (Q → E))

/-- Apply one method call, keeping only the machine. -/
def applyOp [DecidableEq O] (m : MooreMachine Q I E O) :
    MOp Q I E O → MooreMachine Q I E O
  | .addObs o => (m.addStateObserver o).1
  | .removeObs o => (m.removeStateObserver o).1
  | .stepIn i => (m.step i).1
  | .setOut f => m.setOutputFunction f

/-- Apply a sequence of method calls. -/
def runOps [DecidableEq O] (m : MooreMachine Q I E O)
    (ops : List (MOp Q I E O)) : MooreMachine Q I E O :=
  ops.foldl applyOp m

/-- `step` never touches the observer list. -/
theorem step_observers (m : MooreMachine Q I E O) (input : I) :
    (m.step input).1.observers = m.observers := by
  cases h : m.delta <;> simp [MooreMachine.step, h]

/-- A successful `removeFirst` shortens the list by exactly one. -/
theorem removeFirst_length [DecidableEq O] (l : List O) (o : O) (l' : List O)
    (h : removeFirst l o = some l') : l'.length + 1 = l.length := by
  induction l generalizing l' with
  | nil => simp [removeFirst] at h
  | cons x xs ih =>
    by_cases hx : x = o
    · simp [removeFirst, hx] at h
      simp [← h]
    · simp only [removeFirst, if_neg hx] at h
      cases hr : removeFirst xs o with
      | none => rw [hr] at h; simp at h
      | some ys =>
        rw [hr] at h
        simp at h
        have := ih ys hr
        simp [← h, ← this]

/-- Every method call keeps the observer count within `MAX_OBSERVERS`. -/
theorem applyOp_capacity [DecidableEq O] (m : MooreMachine Q I E O)
    (op : MOp Q I E O) (h : m.observers.length ≤ MAX_OBSERVERS) :
    (applyOp m op).observers.length ≤ MAX_OBSERVERS := by
  cases op with
  | addObs obs =>
    cases obs with
    | none => exact h
    | some o =>
      by_cases hfull : m.observers.length ≥ MAX_OBSERVERS
      · simpa [applyOp, MooreMachine.addStateObserver, if_pos hfull] using h
      · have hlt : m.observers.length < MAX_OBSERVERS := Nat.lt_of_not_le hfull
        simp [applyOp, MooreMachine.addStateObserver, if_neg hfull]
        omega
  | removeObs o =>
    cases hr : removeFirst m.observers o with
    | none => simpa [applyOp, MooreMachine.removeStateObserver, hr] using h
    | some l' =>
      have := removeFirst_length m.observers o l' hr
      simp [applyOp, MooreMachine.removeStateObserver, hr]
      omega
  | stepIn i => simpa [applyOp, step_observers] using h
  | setOut f => simpa [applyOp, MooreMachine.setOutputFunction] using h

/-- The capacity bound is preserved along any sequence of method calls. -/
theorem runOps_capacity [DecidableEq O] (ops : List (MOp Q I E O)) :
    ∀ m : MooreMachine Q I E O, m.observers.length ≤ MAX_OBSERVERS →
      (runOps m ops).observers.length ≤ MAX_OBSERVERS := by
  induction ops with
  | nil => intro m h; exact h
  | cons op ops ih =>
    intro m h
    exact ih (applyOp m op) (applyOp_capacity m op h)

/-- C4: starting from a freshly constructed engine, the observer count
never exceeds `MAX_OBSERVERS` (= 8) after any sequence of method calls;
`addStateObserver` returns false and leaves the machine unchanged when 8
observers are registered; and after one successful `removeStateObserver`
an `addStateObserver` of a non-null observer succeeds again. -/
theorem C4_observer_capacity (Q I E O : Type) [DecidableEq O]
    (d : Option (Q → I → Q)) (q0 : Q) (ops : List (MOp Q I E O))
    (m m2 : MooreMachine Q I E O) (o o2 o' : O)
    (hfull : m.observers.length = MAX_OBSERVERS)
    (h2 : m2.observers.length ≤ MAX_OBSERVERS)
    (hrem : (m2.removeStateObserver o').2 = true) :
    (runOps (MooreMachine.mk0 Q I E O d q0) ops).observers.length ≤ MAX_OBSERVERS
      ∧ m.addStateObserver (some o) = (m, false)
      ∧ ((m2.removeStateObserver o').1.addStateObserver (some o2)).2 = true := by
  refine ⟨?_, ?_, ?_⟩
  · exact runOps_capacity ops _ (by simp [MooreMachine.mk0])
  · simp [MooreMachine.addStateObserver, hfull]
  · cases hr : removeFirst m2.observers o' with
    | none => simp [MooreMachine.removeStateObserver, hr] at hrem
    | some l' =>
      have hlen := removeFirst_length m2.observers o' l' hr
      have hlt : l'.length < MAX_OBSERVERS := by omega
      simp [MooreMachine.removeStateObserver, hr, MooreMachine.addStateObserver,
        Nat.not_le_of_lt hlt]

/-- Concrete full machine for the C4 witness: 8 registered observers. -/
def M4full : MooreMachine Nat Nat Nat Nat :=
  ⟨0, none, none, [0, 1, 2, 3, 4, 5, 6, 7]⟩

/-- Concrete machine for the C4 remove-then-add part of the witness. -/
def M4part : MooreMachine Nat Nat Nat Nat :=
  ⟨0, none, none, [0, 1, 2]⟩

/-- Witness for C4: after two registrations the count stays within bound;
adding a 9th observer to a full machine fails; removing observer 1 from
a 3-observer machine and then adding observer 9 succeeds. -/
theorem C4_witness :
    (runOps (MooreMachine.mk0 Nat Nat Nat Nat none 0)
        [MOp.addObs (some 1), MOp.addObs (some 2)]).observers.length ≤ MAX_OBSERVERS
      ∧ M4full.addStateObserver (some 9) = (M4full, false)
      ∧ ((M4part.removeStateObserver 1).1.addStateObserver (some 9)).2 = true :=
  C4_observer_capacity Nat Nat Nat Nat none 0
    [MOp.addObs (some 1), MOp.addObs (some 2)] M4full M4part 9 9 1
    rfl (by decide) rfl

/-- `removeFirst` fails exactly on lists not containing the observer. -/
theorem removeFirst_eq_none [DecidableEq O] (l : List O) (o : O)
    (h : o ∉ l) : removeFirst l o = none := by
  induction l with
  | nil => rfl
  | cons x xs ih =>
    have hx : ¬x = o := fun hxo => h (hxo ▸ List.mem_cons_self x xs)
    have hxs : o ∉ xs := fun hm => h (List.mem_cons_of_mem x hm)
    simp [removeFirst, if_neg hx, ih hxs]

/-- Removing the first occurrence from `pre ++ o :: post` with `o` not in
`pre` yields `pre ++ post`: everything after the removed slot shifts down
one position. -/
theorem removeFirst_append [DecidableEq O] (pre : List O) (o : O) (post : List O)
    (hpre : o ∉ pre) : removeFirst (pre ++ o :: post) o = some (pre ++ post) := by
  induction pre with
  | nil => simp [removeFirst]
  | cons x xs ih =>
    have hx : ¬x = o := fun hxo => hpre (hxo ▸ List.mem_cons_self x xs)
    have hxs : o ∉ xs := fun hm => hpre (List.mem_cons_of_mem x hm)
    simp [removeFirst, if_neg hx, ih hxs]

/-- C5: `removeStateObserver` removes by identity and shifts the
observers after the removed one down a position, preserving the relative
order of the remaining observers (from `pre ++ [o] ++ post` it leaves
`pre ++ post`, notified in that order), and returns true; when `o` is not
registered it returns false and leaves the machine unchanged. -/
theorem C5_removeStateObserver_order (Q I E O : Type) [DecidableEq O]
    (m m2 : MooreMachine Q I E O) (o o2 : O) (pre post : List O) (q q' : Q)
    (habsent : o ∉ m.observers)
    (hsplit : m2.observers = pre ++ o2 :: post) (hpre : o2 ∉ pre) :
    m.removeStateObserver o = (m, false)
      ∧ m2.removeStateObserver o2 = ({ m2 with observers := pre ++ post }, true)
      ∧ ((m2.removeStateObserver o2).1.notifyObservers q q')
          = (pre ++ post).map (fun ob => ⟨ob, q, q'⟩) := by
  have hrm : removeFirst m2.observers o2 = some (pre ++ post) := by
    rw [hsplit]; exact removeFirst_append pre o2 post hpre
  refine ⟨?_, ?_, ?_⟩
  · simp [MooreMachine.removeStateObserver, removeFirst_eq_none m.observers o habsent]
  · simp [MooreMachine.removeStateObserver, hrm]
  · simp [MooreMachine.removeStateObserver, hrm, MooreMachine.notifyObservers]

/-- Concrete machine for the C5 witness: observer 30 is not registered. -/
def M5a : MooreMachine Nat Nat Nat Nat :=
  ⟨0, none, none, [10, 20]⟩

/-- Concrete machine for the C5 witness: observers A=1, B=2, C=3. -/
def M5b : MooreMachine Nat Nat Nat Nat :=
  ⟨0, none, none, [1, 2, 3]⟩

/-- Witness for C5: removing an unregistered observer fails and changes
nothing; removing B from [A,B,C] leaves [A,C], and a notification then
calls A and C in that order. -/
theorem C5_witness :
    M5a.removeStateObserver 30 = (M5a, false)
      ∧ M5b.removeStateObserver 2 = ({ M5b with observers := [1] ++ [3] }, true)
      ∧ ((M5b.removeStateObserver 2).1.notifyObservers 7 8)
          = ([1] ++ [3]).map (fun ob => ⟨ob, 7, 8⟩) :=
  C5_removeStateObserver_order Nat Nat Nat Nat M5a M5b 30 2 [1] [3] 7 8
    (by decide) rfl (by decide)

/-- The sequence of `n` consecutive `getCurrentOutput()` calls returns
the same value every time: the call has no side effect on the machine. -/
theorem repeatedOutputs_eq [Inhabited E] (m : MooreMachine Q I E O) (n : Nat) :
    m.repeatedOutputs n = List.replicate n m.getCurrentOutput := by
  induction n with
  | zero => rfl
  | succ k ih =>
    simp [MooreMachine.repeatedOutputs, MooreMachine.getCurrentOutputCall,
      List.replicate, ih]

/-- C6: `getCurrentOutput()` returns `lambda(currentState)` when the
output function is set and the default-constructed effect when it is
not; the call leaves the machine unchanged, so any number of consecutive
calls between state changes return identical results. -/
theorem C6_getCurrentOutput_idempotent (Q I E O : Type) [Inhabited E]
    (m m2 : MooreMachine Q I E O) (l : Q → E) (n : Nat)
    (hsome : m.lambda = some l) (hnone : m2.lambda = none) :
    m.getCurrentOutput = l m.currentState
      ∧ m2.getCurrentOutput = (default : E)
      ∧ m.getCurrentOutputCall.2 = m
      ∧ m.repeatedOutputs n = List.replicate n m.getCurrentOutput := by
  refine ⟨?_, ?_, rfl, repeatedOutputs_eq m n⟩
  · simp [MooreMachine.getCurrentOutput, hsome]
  · simp [MooreMachine.getCurrentOutput, hnone]

/-- Concrete machine for the C6 witness: output function is successor,
current state 5. -/
def M6a : MooreMachine Nat Nat Nat Nat :=
  ⟨5, none, some (fun q => q + 1), []⟩

/-- Concrete machine for the C6 witness: no output function. -/
def M6b : MooreMachine Nat Nat Nat Nat :=
  ⟨5, none, none, []⟩

/-- Witness for C6 at the two concrete machines, with three consecutive
calls. -/
theorem C6_witness :
    M6a.getCurrentOutput = (fun q => q + 1) M6a.currentState
      ∧ M6b.getCurrentOutput = (default : Nat)
      ∧ M6a.getCurrentOutputCall.2 = M6a
      ∧ M6a.repeatedOutputs 3 = List.replicate 3 M6a.getCurrentOutput :=
  C6_getCurrentOutput_idempotent Nat Nat Nat Nat M6a M6b (fun q => q + 1) 3 rfl rfl

/-- Modelled from the spec: the feedback-variant engine (its source file
is not under src/; spec section 4.1 describes it).  Its output function
maps a transition `(Q_old, Q_new)` to a follow-up input; both callables
are nullable. -/
structure FeedbackMachine (Q I O : Type) where
  currentState : Q
  delta : Option (Q → I → Q)
  lambdaFB : Option (Q → Q → I)
  observers : List O

/-- Modelled from the spec: the fixed bound (3) on the process-wide
recursion-depth counter of the feedback variant. -/
def FEEDBACK_DEPTH_BOUND : Nat := 3

/-- Modelled from the spec: `step(input)` of the feedback variant.  If
`delta` is null, no-op.  Otherwise transition; if `lambdaFB` is present,
compute the follow-up input `lambdaFB old new` and recursively invoke
step on it, but only while the recursion-depth counter is below
`FEEDBACK_DEPTH_BOUND` — beyond the bound the follow-up input is
discarded; then notify every registered observer with `(old, new)`.  The
process-wide counter is passed explicitly (0 at an external call).
Returns the machine, the observer invocations, and the number of step
invocations that processed an input. -/
def FeedbackMachine.step (m : FeedbackMachine Q I O) (counter : Nat) (input : I) :
    FeedbackMachine Q I O × List (Invocation Q O) × Nat :=
  match m.delta with
  | none => (m, [], 0)
  | some d =>
    let oldState := m.currentState
    let newState := d oldState input
    let m1 : FeedbackMachine Q I O := { m with currentState := newState }
    match m.lambdaFB with
    | none => (m1, m.observers.map (fun o => ⟨o, oldState, newState⟩), 1)
    | some lam =>
      let followUp := lam oldState newState
      if h : counter < FEEDBACK_DEPTH_BOUND then
        let r := FeedbackMachine.step m1 (counter + 1) followUp
        (r.1, r.2.1 ++ m.observers.map (fun o => ⟨o, oldState, newState⟩), r.2.2 + 1)
      else
        (m1, m.observers.map (fun o => ⟨o, oldState, newState⟩), 1)
termination_by FEEDBACK_DEPTH_BOUND - counter
decreasing_by omega

/-- Projecting the observer out of a block of invocation records gives
back the observer list of the block. -/
theorem map_invocation_obs (a b : Q) (obs : List O) :
    List.map (Invocation.obs ∘ fun o => (⟨o, a, b⟩ : Invocation Q O)) obs = obs := by
  have h : (Invocation.obs ∘ fun o => (⟨o, a, b⟩ : Invocation Q O)) = fun o => o := rfl
  rw [h, List.map_id']

/-- C2: in the feedback variant with an output function that always
returns a follow-up input, one external `step` call (counter 0)
processes exactly 1 + 3 step invocations — the original plus 3 nested
follow-ups, after which the follow-up input is discarded — and each
registered observer is notified exactly 4 times. -/
theorem C2_feedback_depth_bound (Q I O : Type) [DecidableEq O] (q0 : Q)
    (d : Q → I → Q) (lam : Q → Q → I) (obs : List O) (input : I) :
    ((⟨q0, some d, some lam, obs⟩ : FeedbackMachine Q I O).step 0 input).2.2
        = FEEDBACK_DEPTH_BOUND + 1
      ∧ ∀ o : O,
        (((⟨q0, some d, some lam, obs⟩ : FeedbackMachine Q I O).step 0 input).2.1.map
            Invocation.obs).count o = (FEEDBACK_DEPTH_BOUND + 1) * obs.count o := by
  constructor
  · simp [FeedbackMachine.step, FEEDBACK_DEPTH_BOUND]
  · intro o
    simp [FeedbackMachine.step, FEEDBACK_DEPTH_BOUND, List.count_append,
      map_invocation_obs]
    ring

/-- Modulus of Arduino `unsigned long` arithmetic (32 bits). -/
def ULONG_MOD : Nat := 2 ^ 32

/-- Unsigned 32-bit subtraction `a - b`, with wraparound. -/
def usub (a b : Nat) : Nat :=
  (a % ULONG_MOD + (ULONG_MOD - b % ULONG_MOD)) % ULONG_MOD

/-- The `AsyncOp` object state (AsyncOp.h): an active flag, the start
time latched from `millis()`, and the timeout duration.  `millis()` is
modelled as an explicit clock argument `now` on the methods that read
it. -/
structure AsyncOp where
  active : Bool
  startTime : Nat
  timeout : Nat

/-- The `AsyncOp()` constructor: inactive, both times 0. -/
def AsyncOp.init : AsyncOp := ⟨false, 0, 0⟩

/-- `start(timeoutMs)`: activates, latches `millis()`, sets the timeout. -/
def AsyncOp.start (_op : AsyncOp) (now timeoutMs : Nat) : AsyncOp :=
  ⟨true, now % ULONG_MOD, timeoutMs % ULONG_MOD⟩

/-- `finish()`: deactivates, leaving the times alone. -/
def AsyncOp.finish (op : AsyncOp) : AsyncOp :=
  { op with active := false }

/-- `timedOut()`: active and `millis() - startTime > timeout`. -/
def AsyncOp.timedOut (op : AsyncOp) (now : Nat) : Bool :=
  op.active && decide (usub now op.startTime > op.timeout)

/-- `isActive()`. -/
def AsyncOp.isActive (op : AsyncOp) : Bool :=
  op.active

/-- `remainingTime()`: 0 when inactive or already past the timeout,
otherwise the time left. -/
def AsyncOp.remainingTime (op : AsyncOp) (now : Nat) : Nat :=
  if !op.active then 0
  else
    let elapsed := usub now op.startTime
    if elapsed ≥ op.timeout then 0
    else op.timeout - elapsed

/-- `elapsedTime()`: 0 when inactive, otherwise `millis() - startTime`. -/
def AsyncOp.elapsedTime (op : AsyncOp) (now : Nat) : Nat :=
  if !op.active then 0
  else usub now op.startTime

/-- `getTimeout()`. -/
def AsyncOp.getTimeout (op : AsyncOp) : Nat :=
  op.timeout

/-- `getProgress()`: 0 when inactive, 100 once `elapsed >= timeout`,
otherwise `(elapsed * 100) / timeout` in unsigned-long arithmetic. -/
def AsyncOp.getProgress (op : AsyncOp) (now : Nat) : Nat :=
  if !op.active then 0
  else
    let elapsed := usub now op.startTime
    if elapsed ≥ op.timeout then 100
    else elapsed * 100 % ULONG_MOD / op.timeout

/-- `getProgress()` with its division guarded: `none` would signal that
the division `(elapsed * 100) / timeout` is reached with `timeout = 0`. -/
def AsyncOp.getProgressDivSafe (op : AsyncOp) (now : Nat) : Option Nat :=
  if !op.active then some 0
  else
    let elapsed := usub now op.startTime
    if elapsed ≥ op.timeout then some 100
    else if op.timeout = 0 then none
    else some (elapsed * 100 % ULONG_MOD / op.timeout)

/-- C7: `timedOut()` is true iff the operation is active and the elapsed
time strictly exceeds the timeout; `getProgress()` is 0 while inactive
and 100 once timed out; `timedOut()` is false immediately after
`start(1000)`; and `getProgress()` is 100 once the elapsed time exceeds
1000. -/
theorem C7_timeout_tracker (op opIn opTo opSt : AsyncOp)
    (now nowIn nowTo now0 nowLate : Nat)
    (hIn : opIn.isActive = false)
    (hTo : opTo.timedOut nowTo = true)
    (hLate : (opSt.start now0 1000).elapsedTime nowLate > 1000) :
    (op.timedOut now = true
        ↔ op.isActive = true ∧ op.elapsedTime now > op.getTimeout)
      ∧ opIn.getProgress nowIn = 0
      ∧ opTo.getProgress nowTo = 100
      ∧ (opSt.start now0 1000).timedOut now0 = false
      ∧ (opSt.start now0 1000).getProgress nowLate = 100 := by
  refine ⟨?_, ?_, ?_, ?_, ?_⟩
  · cases h : op.active <;>
      simp [AsyncOp.timedOut, AsyncOp.isActive, AsyncOp.elapsedTime,
        AsyncOp.getTimeout, h]
  · simp [AsyncOp.isActive] at hIn
    simp [AsyncOp.getProgress, hIn]
  · simp [AsyncOp.timedOut] at hTo
    have hge : usub nowTo opTo.startTime ≥ opTo.timeout := Nat.le_of_lt hTo.2
    simp [AsyncOp.getProgress, hTo.1, hge]
  · have h0 : usub now0 (now0 % ULONG_MOD) = 0 := by
      unfold usub ULONG_MOD
      omega
    simp [AsyncOp.timedOut, AsyncOp.start, h0]
  · have ht : (1000 : Nat) % ULONG_MOD = 1000 := by unfold ULONG_MOD; norm_num
    simp [AsyncOp.elapsedTime, AsyncOp.start, ht] at hLate
    have hge : usub nowLate (now0 % ULONG_MOD) ≥ 1000 % ULONG_MOD := by
      rw [ht]; exact Nat.le_of_lt hLate
    simp [AsyncOp.getProgress, AsyncOp.start, hge]

/-- Witness for C7: a 50 ms operation started at time 0 is timed out at
time 100 and reports progress 100; an inactive operation reports
progress 0; an operation started at time 123 with timeout 1000 is not
timed out at 123 and reports progress 100 at time 2000. -/
theorem C7_witness :
    ((⟨true, 0, 50⟩ : AsyncOp).timedOut 100 = true
        ↔ (⟨true, 0, 50⟩ : AsyncOp).isActive = true
          ∧ (⟨true, 0, 50⟩ : AsyncOp).elapsedTime 100
            > (⟨true, 0, 50⟩ : AsyncOp).getTimeout)
      ∧ AsyncOp.init.getProgress 7 = 0
      ∧ (⟨true, 0, 50⟩ : AsyncOp).getProgress 100 = 100
      ∧ (AsyncOp.init.start 123 1000).timedOut 123 = false
      ∧ (AsyncOp.init.start 123 1000).getProgress 2000 = 100 :=
  C7_timeout_tracker ⟨true, 0, 50⟩ AsyncOp.init ⟨true, 0, 50⟩ AsyncOp.init
    100 7 100 123 2000 rfl (by decide) (by decide)

/-- C10: `getProgress()` never reaches its division with a zero
divisor: the guarded variant never returns `none` and agrees with
`getProgress()` everywhere; in particular an active operation with
timeout 0 always takes the `elapsed >= timeout` branch and returns 100. -/
theorem C10_getProgress_no_div_by_zero (op opZ : AsyncOp) (now nowZ : Nat)
    (hact : opZ.active = true) (hzero : opZ.timeout = 0) :
    op.getProgressDivSafe now = some (op.getProgress now)
      ∧ opZ.getProgress nowZ = 100 := by
  constructor
  · cases h : op.active with
    | false => simp [AsyncOp.getProgressDivSafe, AsyncOp.getProgress, h]
    | true =>
      by_cases hge : usub now op.startTime ≥ op.timeout
      · simp [AsyncOp.getProgressDivSafe, AsyncOp.getProgress, h, hge]
      · have hpos : op.timeout ≠ 0 := by omega
        simp [AsyncOp.getProgressDivSafe, AsyncOp.getProgress, h, hge, hpos]
  · have hge : usub nowZ opZ.startTime ≥ opZ.timeout := by
      rw [hzero]; exact Nat.zero_le _
    simp [AsyncOp.getProgress, hact, hge]

/-- Witness for C10 at a concrete operation with timeout 0, clock 5. -/
theorem C10_witness :
    (⟨true, 0, 0⟩ : AsyncOp).getProgressDivSafe 5
        = some ((⟨true, 0, 0⟩ : AsyncOp).getProgress 5)
      ∧ (⟨true, 0, 0⟩ : AsyncOp).getProgress 5 = 100 :=
  C10_getProgress_no_div_by_zero ⟨true, 0, 0⟩ ⟨true, 0, 0⟩ 5 5 rfl rfl

/-- The `Button` object state (Button.h): the pin, the raw reading seen
on the previous `update` call, the debounced (stable) state, the
`millis()` value latched at the last observed raw change, and the
debounce delay.  `HIGH` is `true`, `LOW` is `false`; `digitalRead(pin)`
is modelled as an explicit `reading` argument and `millis()` as an
explicit `now` argument. -/
structure Button where
  pin : Nat
  lastState : Bool
  currentState : Bool
  lastChangeTime : Nat
  debounceDelay : Nat

/-- `DEFAULT_DEBOUNCE_DELAY` (50 ms). -/
def DEFAULT_DEBOUNCE_DELAY : Nat := 50

/-- The `Button(pinNumber, debounceMs)` constructor: both states start
`HIGH`, the change time at 0. -/
def Button.mk0 (pinNumber : Nat) (debounceMs : Nat) : Button :=
  ⟨pinNumber, true, true, 0, debounceMs⟩

/-- `update()`: latch the change time when the raw reading differs from
the previous one; accept the reading as the new debounced state when
the time since the last observed change strictly exceeds the debounce
delay and the reading differs from the debounced state.  Returns the
updated object and whether the debounced state changed. -/
def Button.update (b : Button) (now : Nat) (reading : Bool) : Button × Bool :=
  let lct := if reading ≠ b.lastState then now % ULONG_MOD else b.lastChangeTime
  if usub now lct > b.debounceDelay then
    if reading ≠ b.currentState then
      (⟨b.pin, reading, reading, lct, b.debounceDelay⟩, true)
    else
      (⟨b.pin, reading, b.currentState, lct, b.debounceDelay⟩, false)
  else
    (⟨b.pin, reading, b.currentState, lct, b.debounceDelay⟩, false)

/-- `isPressed()`: the debounced state is `LOW`. -/
def Button.isPressed (b : Button) : Bool :=
  b.currentState == false

/-- The clock elapsed since the last observed raw change, as `update`
computes it: when the incoming reading differs from the previous raw
reading the change is observed now, so the elapsed time is measured
from `now` itself. -/
def Button.sinceLastChange (b : Button) (now : Nat) (reading : Bool) : Nat :=
  usub now (if reading ≠ b.lastState then now % ULONG_MOD else b.lastChangeTime)

/-- Subtracting the latched `now` from `now` itself gives 0. -/
theorem usub_self_mod (now : Nat) : usub now (now % ULONG_MOD) = 0 := by
  unfold usub ULONG_MOD
  omega

/-- The debounced state after one `update`: it becomes the reading
exactly when the reading repeats the previous raw reading and the time
since the latched change strictly exceeds the debounce delay; in every
other case it is untouched. -/
theorem update_currentState (b : Button) (now : Nat) (reading : Bool) :
    (b.update now reading).1.currentState =
      if reading = b.lastState ∧ usub now b.lastChangeTime > b.debounceDelay
      then reading
      else b.currentState := by
  by_cases hr : reading = b.lastState
  · by_cases hg : usub now b.lastChangeTime > b.debounceDelay
    · by_cases hc : reading = b.currentState
      · have hlc : b.lastState = b.currentState := hr.symm.trans hc
        simp [Button.update, hr, hg, hc, hlc]
      · have hlc : ¬ b.lastState = b.currentState := fun h => hc (hr.trans h)
        simp [Button.update, hr, hg, hlc]
    · simp [Button.update, hr, hg]
  · simp [Button.update, hr, usub_self_mod]

/-- C8: `update` accepts a raw reading as the new debounced state only
when the reading repeats the previously observed raw reading and the
time since the last observed raw change strictly exceeds (hence is at
least) the debounce delay — and then the new debounced state is that
reading; whenever the time since the last observed raw change is within
the debounce delay, the debounced state does not change. -/
theorem C8_debounce (b b2 : Button) (now now2 : Nat) (reading reading2 : Bool)
    (hchanged : (b.update now reading).1.currentState ≠ b.currentState)
    (hwithin : b2.sinceLastChange now2 reading2 ≤ b2.debounceDelay) :
    (reading = b.lastState
        ∧ b.sinceLastChange now reading > b.debounceDelay
        ∧ usub now b.lastChangeTime > b.debounceDelay
        ∧ (b.update now reading).1.currentState = reading)
      ∧ (b2.update now2 reading2).1.currentState = b2.currentState := by
  constructor
  · rw [update_currentState] at hchanged
    by_cases hcond : reading = b.lastState
        ∧ usub now b.lastChangeTime > b.debounceDelay
    · refine ⟨hcond.1, ?_, hcond.2, ?_⟩
      · unfold Button.sinceLastChange
        simpa [hcond.1] using hcond.2
      · rw [update_currentState, if_pos hcond]
    · exact absurd (if_neg hcond) hchanged
  · unfold Button.sinceLastChange at hwithin
    have hng : ¬ (usub now2 (if reading2 ≠ b2.lastState then now2 % ULONG_MOD
        else b2.lastChangeTime) > b2.debounceDelay) := by omega
    simp only [Button.update]
    rw [if_neg hng]

/-- Witness for C8: a button whose previous raw reading is already `LOW`
with the change latched at time 100 and delay 50 accepts `LOW` at time
200; a button observing a stable `HIGH` at time 120, only 20 ms after
the latched change, keeps its debounced state. -/
theorem C8_witness :
    (false = (⟨2, false, true, 100, 50⟩ : Button).lastState
        ∧ (⟨2, false, true, 100, 50⟩ : Button).sinceLastChange 200 false > 50
        ∧ usub 200 (⟨2, false, true, 100, 50⟩ : Button).lastChangeTime > 50
        ∧ ((⟨2, false, true, 100, 50⟩ : Button).update 200 false).1.currentState
          = false)
      ∧ ((⟨2, true, true, 100, 50⟩ : Button).update 120 true).1.currentState
        = (⟨2, true, true, 100, 50⟩ : Button).currentState :=
  C8_debounce ⟨2, false, true, 100, 50⟩ ⟨2, true, true, 100, 50⟩ 200 120
    false true (by decide) (by decide)

end MooreArduino
